import Mathlib

/-!
Verification of the Teams presence tool (`src/classes/Graph.ts`, `src/index.ts`).

The TypeScript source is shallowly embedded: each method of `Graph` that the
claims mention becomes a Lean function over explicit data, remote calls become
entries in an event trace, and the environment/remote behaviour is supplied by
explicit parameters (an oracle deciding which remote calls succeed, an
`Except` value for the configuration file, and so on).
-/

namespace TeamsPresence

/-- A remote directory user, as returned by `listUsers` (`/users`).
Only the fields the program reads are modelled. -/
structure User where
  id : String
  userPrincipalName : String
deriving DecidableEq, Repr

/-- One entry of `accounts.json` (the `AccountConfig` of the spec):
`label`, `username`, `id`, `status`, all optional in the file. -/
structure Target where
  label : Option String
  username : Option String
  id : Option String
  status : Option String
deriving DecidableEq, Repr

/-- The `Account` interface of `Graph.ts`: a directory user together with the
`status` field the loader attaches (`account.status = target.status ?? ...`). -/
structure Account where
  id : String
  userPrincipalName : String
  status : String
deriving DecidableEq, Repr

/-- The body of the `setPresence` request
(`{sessionId, availability, activity, expirationDuration}`). -/
structure PresenceRequest where
  sessionId : String
  availability : String
  activity : String
  expirationDuration : String
deriving DecidableEq, Repr

/-- The body of the `setUserPreferredPresence` request
(`{availability, activity}`). -/
structure PreferredRequest where
  availability : String
  activity : String
deriving DecidableEq, Repr

/-- JavaScript's `String.prototype.toLowerCase` restricted to the ASCII
characters the program compares (same mapping as Lean's `Char.toLower`,
written over the character list so the kernel can evaluate it). -/
def strLower (s : String) : String := ⟨s.data.map Char.toLower⟩

/-- The `switch (account.status.toLowerCase())` of `Graph.setPresence`
(Graph.ts lines 186-209): a case-equality chain on the lowercased status,
defaulting to `("Available", "Available")`. -/
def statusToPresence (status : String) : String × String :=
  let s := strLower status
  if s = "available" then ("Available", "Available")
  else if s = "away" then ("Away", "Away")
  else if s = "busy" then ("Busy", "InACall")
  else if s = "donotdisturb" then ("DoNotDisturb", "Presenting")
  else ("Available", "Available")

/-- The request `Graph.setPresence` posts to `/users/{id}/presence/setPresence`
(Graph.ts lines 211-216): mapped availability/activity, the client ID as
session, and a fixed `"PT4H"` expiration. -/
def setPresenceRequest (clientID : String) (a : Account) : PresenceRequest :=
  { sessionId := clientID
    availability := (statusToPresence a.status).1
    activity := (statusToPresence a.status).2
    expirationDuration := "PT4H" }

/-- The request `Graph.setPreferredPresence` posts to
`/users/{id}/presence/setUserPreferredPresence` (Graph.ts lines 224-227). -/
def preferredPresenceRequest : PreferredRequest :=
  { availability := "Available", activity := "Available" }

/-- The matching predicate of `Graph.loadAccounts` (Graph.ts lines 136-139):
`(target.username && user.userPrincipalName.toLowerCase() == target.username.toLowerCase())
 || (target.id && user.id.toLowerCase() == target.id.toLowerCase())`.
A missing or empty string is falsy in JavaScript, so each key contributes only
when present and non-empty. -/
def matchesTarget (t : Target) (u : User) : Bool :=
  (match t.username with
    | some n => !(n == "") && (strLower u.userPrincipalName == strLower n)
    | none => false) ||
  (match t.id with
    | some i => !(i == "") && (strLower u.id == strLower i)
    | none => false)

/-- The name used in the not-found error (Graph.ts line 145):
`target.label ?? target.username ?? target.id` interpolated into the message
(JavaScript renders a fully-missing chain as "undefined"). -/
def labelOf (t : Target) : String :=
  ((t.label.orElse fun _ => t.username).orElse fun _ => t.id).getD "undefined"

/-- The account pushed for a matched config entry (Graph.ts lines 141-143):
the found user with `status = target.status ?? process.env.DEFAULT_STATUS ?? "Available"`. -/
def resolveOne (env : Option String) (t : Target) (u : User) : Account :=
  { id := u.id
    userPrincipalName := u.userPrincipalName
    status := (t.status.orElse fun _ => env).getD "Available" }

/-- The `for (const target of targets)` loop of `Graph.loadAccounts`
(Graph.ts lines 135-147), with `acc` the current contents of `this.accounts`
(cleared to `[]` before the loop on line 132). Returns the promise outcome
together with the final contents of `this.accounts`. -/
def loadAccountsGo (env : Option String) (users : List User) (acc : List Account) :
    List Target → Except String (List Account) × List Account
  | [] => (.ok acc, acc)
  | t :: ts =>
    match users.find? (matchesTarget t) with
    | some u => loadAccountsGo env users (acc ++ [resolveOne env t u]) ts
    | none => (Except.error ("Account not found for " ++ labelOf t), acc)

/-- `Graph.loadAccounts` (Graph.ts lines 120-151) after the config file has
been read and the user list fetched: `this.accounts` is cleared, then each
entry is matched in order. First component: the returned/thrown outcome;
second component: the contents of `this.accounts` afterwards. -/
def loadAccounts (env : Option String) (users : List User) (targets : List Target) :
    Except String (List Account) × List Account :=
  loadAccountsGo env users [] targets

/-- Boolean test for the error case of an `Except`. -/
def isErr {ε α : Type} : Except ε α → Bool
  | .error _ => true
  | .ok _ => false

/-- The accounts resolved before the first unmatched entry: the loop resolves
entries in order and stops at the first failure, so `this.accounts` ends up
holding exactly the resolutions of the longest all-matching head of the
config list. -/
def resolvedSoFar (env : Option String) (users : List User) (ts : List Target) :
    List Account :=
  (ts.takeWhile fun t => (users.find? (matchesTarget t)).isSome).filterMap
    fun t => (users.find? (matchesTarget t)).map (resolveOne env t)

/-- A remote API call issued by the tool: the two presence-setting posts of
`Graph.process` and the batched presence fetch of `Graph.listPresence`. -/
inductive Call where
  | setPreferred (userId : String) (req : PreferredRequest)
  | setPresence (userId : String) (req : PresenceRequest)
  | getPresences (ids : List String)
deriving DecidableEq, Repr

/-- Observable events of a run: enforced sleeps (`delay(ms)`), remote calls
that succeeded or threw, and `Logging.error` lines. -/
inductive Event where
  | delay (ms : Nat)
  | callOk (c : Call)
  | callFail (c : Call)
  | logError
deriving DecidableEq, Repr

/-- Whether the applying loop of `Graph.process` ran to completion or was
aborted by its internal `catch`/`return`. -/
inductive ApplyOutcome where
  | completed
  | aborted
deriving DecidableEq, Repr

/-- The `for (const account of accounts)` loop of `Graph.process`
(Graph.ts lines 256-269): per account, `setPreferredPresence` then
`setPresence` inside a try/catch that logs and returns on failure, followed by
`delay(PROCESS_DELAY)` on success. `ok` tells which remote calls succeed,
`d` is the configured inter-call delay. -/
def applyAccounts (ok : Call → Bool) (cid : String) (d : Nat) :
    List Account → List Event × ApplyOutcome
  | [] => ([], ApplyOutcome.completed)
  | a :: rest =>
    if ok (Call.setPreferred a.id preferredPresenceRequest) then
      if ok (Call.setPresence a.id (setPresenceRequest cid a)) then
        (Event.callOk (Call.setPreferred a.id preferredPresenceRequest) ::
          Event.callOk (Call.setPresence a.id (setPresenceRequest cid a)) ::
          Event.delay d :: (applyAccounts ok cid d rest).1,
          (applyAccounts ok cid d rest).2)
      else
        ([Event.callOk (Call.setPreferred a.id preferredPresenceRequest),
          Event.callFail (Call.setPresence a.id (setPresenceRequest cid a)),
          Event.logError], ApplyOutcome.aborted)
    else
      ([Event.callFail (Call.setPreferred a.id preferredPresenceRequest),
        Event.logError], ApplyOutcome.aborted)

/-- The applying phase of `Graph.process` (Graph.ts lines 254-269): one
`delay(PROCESS_DELAY)` before the loop, then the per-account loop. -/
def processApply (ok : Call → Bool) (cid : String) (d : Nat)
    (accounts : List Account) : List Event × ApplyOutcome :=
  ((Event.delay d) :: (applyAccounts ok cid d accounts).1,
    (applyAccounts ok cid d accounts).2)

/-- `Graph.process` (Graph.ts lines 243-272). Every failure path — missing or
unparsable config file, a failing user-list fetch, an unmatched account, or a
failing presence call — is caught inside the method, logged, and turns into a
normal return, so the result type carries no exception: the function value is
the event trace alone. -/
def processRun (config : Except String (List Target))
    (usersR : Except String (List User)) (env : Option String)
    (ok : Call → Bool) (cid : String) (d : Nat) : List Event :=
  match config with
  | .error _ => [Event.logError]
  | .ok targets =>
    match usersR with
    | .error _ => [Event.logError]
    | .ok users =>
      match (loadAccounts env users targets).1 with
      | .error _ => [Event.logError]
      | .ok accounts => (processApply ok cid d accounts).1

/-- The contents of `this.accounts` after `Graph.process` returns: a config
file error is thrown before the field is cleared (so the previous value
survives), a user-list failure leaves it cleared, and otherwise it is
whatever the matching loop left behind. -/
def accountsAfter (prev : List Account) (config : Except String (List Target))
    (usersR : Except String (List User)) (env : Option String) : List Account :=
  match config with
  | .error _ => prev
  | .ok targets =>
    match usersR with
    | .error _ => []
    | .ok users => (loadAccounts env users targets).2

/-- The polling loop of `main` (index.ts lines 13-16): `n` iterations of
`listPresence` (one `getPresencesByUserId` post) followed by a 20-second
delay. `pollOk i` tells whether the fetch of iteration `i` succeeds; a
failure throws out of the loop (second component `true`). -/
def pollLoop (pollOk : Nat → Bool) (ids : List String) :
    Nat → Nat → List Event × Bool
  | 0, _ => ([], false)
  | Nat.succ n, i =>
    if pollOk i then
      (Event.callOk (Call.getPresences ids) :: Event.delay 20000 ::
        (pollLoop pollOk ids n (i + 1)).1,
        (pollLoop pollOk ids n (i + 1)).2)
    else ([Event.callFail (Call.getPresences ids)], true)

/-- What one pass of the `while (true)` loop of `main` does next: it always
loops again (nothing inside the loop body can escape the try/catch). -/
inductive LoopStep where
  | next
deriving DecidableEq, Repr

/-- One iteration of the `while (true)` loop of `main` (index.ts lines
10-22): `graph.process()` (which never throws), then the polling loop; if the
polling loop throws, the catch logs the error and sleeps the fixed 30-second
backoff. Either way the loop continues. `n` is `REFRESH_MINUTES * 3` and
`prev` the accounts held before the iteration. -/
def mainIteration (config : Except String (List Target))
    (usersR : Except String (List User)) (env : Option String)
    (ok : Call → Bool) (pollOk : Nat → Bool) (cid : String) (d n : Nat)
    (prev : List Account) : List Event × LoopStep :=
  if (pollLoop pollOk ((accountsAfter prev config usersR env).map Account.id) n 0).2 then
    (processRun config usersR env ok cid d ++
      (pollLoop pollOk ((accountsAfter prev config usersR env).map Account.id) n 0).1 ++
      [Event.logError, Event.delay 30000], LoopStep.next)
  else
    (processRun config usersR env ok cid d ++
      (pollLoop pollOk ((accountsAfter prev config usersR env).map Account.id) n 0).1,
      LoopStep.next)

/-- The credential environment variables the `Graph` constructor checks. -/
structure EnvVars where
  azureTenantId : Option String
  azureClientId : Option String
  azureClientSecret : Option String
deriving DecidableEq, Repr

/-- JavaScript falsiness of an environment variable: missing or empty. -/
def envFalsy : Option String → Bool
  | none => true
  | some s => s == ""

/-- The `Graph` constructor checks (Graph.ts lines 71-79): each missing
credential variable throws before the loop ever starts. -/
def graphInit (e : EnvVars) : Except String Unit :=
  if envFalsy e.azureTenantId then Except.error "AZURE_TENANT_ID not set in .env file."
  else if envFalsy e.azureClientId then Except.error "AZURE_CLIENT_ID not set in .env file."
  else if envFalsy e.azureClientSecret then
    Except.error "AZURE_CLIENT_SECRET not set in .env file."
  else Except.ok ()

/-- The exit code produced by `main().catch(...)` (index.ts lines 25-29):
`process.exit(1)` exactly when something escapes `main`, which only the
constructor can cause; otherwise the loop never returns and no exit code is
produced. -/
def startupExitCode (e : EnvVars) : Option Nat :=
  match graphInit e with
  | .error _ => some 1
  | .ok _ => none

/-- Total milliseconds of enforced `delay(...)` sleeps in a trace. -/
def delaysSum : List Event → Nat
  | [] => 0
  | Event.delay ms :: tr => ms + delaysSum tr
  | _ :: tr => delaysSum tr

/-- The remote calls issued in a trace, in order (failed calls were issued
too). -/
def callsOf : List Event → List Call
  | [] => []
  | Event.callOk c :: tr => c :: callsOf tr
  | Event.callFail c :: tr => c :: callsOf tr
  | _ :: tr => callsOf tr

/-- The user ids whose presence was successfully set in a trace. -/
def setsOf : List Event → List String
  | [] => []
  | Event.callOk (Call.setPresence uid _) :: tr => uid :: setsOf tr
  | _ :: tr => setsOf tr

/-- A concrete remote directory with a single user, used as test data. -/
def cxUsers : List User := [⟨"id1", "alice@x.com"⟩]

/-- A concrete config list whose first entry matches `cxUsers` and whose
second entry matches nothing. -/
def cxTargets : List Target :=
  [⟨some "A", some "alice@x.com", none, none⟩,
    ⟨some "B", some "bob@x.com", none, none⟩]

/-- A concrete config list with just the matching entry. -/
def cxTarget1 : List Target := [⟨some "A", some "alice@x.com", none, none⟩]

/-- A remote oracle under which every explicit set-presence call fails and
everything else succeeds. -/
def cxFailSet : Call → Bool
  | Call.setPresence _ _ => false
  | _ => true

/-- Concrete resolved accounts for three users. -/
def cxA1 : Account := ⟨"u1", "a1@x.com", "Available"⟩

/-- Second concrete resolved account. -/
def cxA2 : Account := ⟨"u2", "a2@x.com", "Available"⟩

/-- Third concrete resolved account. -/
def cxA3 : Account := ⟨"u3", "a3@x.com", "Available"⟩

/-- A remote oracle that fails exactly the set-presence call for user "u2". -/
def cxFailSecond : Call → Bool
  | Call.setPresence "u2" _ => false
  | _ => true

theorem loadAccountsGo_state (env : Option String) (users : List User) :
    ∀ (ts : List Target) (acc : List Account),
      (loadAccountsGo env users acc ts).2 = acc ++ resolvedSoFar env users ts
  | [], acc => by simp [loadAccountsGo, resolvedSoFar]
  | t :: ts, acc => by
    cases h : users.find? (matchesTarget t) with
    | none =>
      simp [loadAccountsGo, h, resolvedSoFar, List.takeWhile_cons]
    | some u =>
      simp only [loadAccountsGo, h]
      rw [loadAccountsGo_state env users ts (acc ++ [resolveOne env t u])]
      simp [resolvedSoFar, List.takeWhile_cons, h, List.filterMap_cons]

theorem loadAccountsGo_unmatched (env : Option String) (users : List User) :
    ∀ (ts : List Target) (acc : List Account) (t : Target), t ∈ ts →
      users.find? (matchesTarget t) = none →
      isErr (loadAccountsGo env users acc ts).1 = true
  | [], _, t, hmem, _ => absurd hmem (List.not_mem_nil t)
  | t' :: ts, acc, t, hmem, hnone => by
    cases h : users.find? (matchesTarget t') with
    | none => simp [loadAccountsGo, h, isErr]
    | some u =>
      have ht : t ∈ ts := by
        rcases List.mem_cons.mp hmem with rfl | ht
        · rw [h] at hnone; exact absurd hnone (by simp)
        · exact ht
      simp only [loadAccountsGo, h]
      exact loadAccountsGo_unmatched env users ts (acc ++ [resolveOne env t' u]) t ht hnone

theorem loadAccountsGo_firstFail (env : Option String) (users : List User)
    (t : Target) (post : List Target)
    (hn : users.find? (matchesTarget t) = none) :
    ∀ (pre : List Target) (acc : List Account),
      (∀ x ∈ pre, (users.find? (matchesTarget x)).isSome = true) →
      (loadAccountsGo env users acc (pre ++ t :: post)).1 =
        Except.error ("Account not found for " ++ labelOf t)
  | [], acc, _ => by simp [loadAccountsGo, hn]
  | x :: pre, acc, hpre => by
    have hx : (users.find? (matchesTarget x)).isSome = true :=
      hpre x (List.mem_cons_self x pre)
    cases h : users.find? (matchesTarget x) with
    | none => rw [h] at hx; simp at hx
    | some u =>
      simp only [List.cons_append, loadAccountsGo, h]
      exact loadAccountsGo_firstFail env users t post hn pre
        (acc ++ [resolveOne env x u]) (fun y hy => hpre y (List.mem_cons_of_mem x hy))

theorem applyAccounts_calls (ok : Call → Bool) (cid : String) (d : Nat)
    (hok : ∀ c, ok c = true) :
    ∀ accounts : List Account,
      callsOf (applyAccounts ok cid d accounts).1 =
        (accounts.map fun a =>
          [Call.setPreferred a.id preferredPresenceRequest,
            Call.setPresence a.id (setPresenceRequest cid a)]).flatten
  | [] => by simp [applyAccounts, callsOf]
  | a :: rest => by
    simp [applyAccounts, hok, callsOf, applyAccounts_calls ok cid d hok rest]

theorem applyAccounts_delays (ok : Call → Bool) (cid : String) (d : Nat) :
    ∀ accounts : List Account,
      (applyAccounts ok cid d accounts).2 = ApplyOutcome.completed →
      delaysSum (applyAccounts ok cid d accounts).1 = d * accounts.length
  | [] => by intro _; simp [applyAccounts, delaysSum]
  | a :: rest => by
    intro hc
    cases h1 : ok (Call.setPreferred a.id preferredPresenceRequest) with
    | false => rw [applyAccounts] at hc; simp [h1] at hc
    | true =>
      cases h2 : ok (Call.setPresence a.id (setPresenceRequest cid a)) with
      | false => rw [applyAccounts] at hc; simp [h1, h2] at hc
      | true =>
        rw [applyAccounts] at hc
        simp only [h1, h2, if_true] at hc
        have ih := applyAccounts_delays ok cid d rest hc
        rw [applyAccounts]
        simp [h1, h2, delaysSum, ih]
        ring

theorem applyAccounts_sets (ok : Call → Bool) (cid : String) (d : Nat) :
    ∀ accounts : List Account,
      setsOf (applyAccounts ok cid d accounts).1 =
        ((accounts.takeWhile fun a =>
          ok (Call.setPreferred a.id preferredPresenceRequest) &&
            ok (Call.setPresence a.id (setPresenceRequest cid a))).map Account.id)
  | [] => by simp [applyAccounts, setsOf]
  | a :: rest => by
    cases h1 : ok (Call.setPreferred a.id preferredPresenceRequest) with
    | false => simp [applyAccounts, h1, setsOf, List.takeWhile_cons]
    | true =>
      cases h2 : ok (Call.setPresence a.id (setPresenceRequest cid a)) with
      | false => simp [applyAccounts, h1, h2, setsOf, List.takeWhile_cons]
      | true =>
        simp [applyAccounts, h1, h2, setsOf, List.takeWhile_cons,
          applyAccounts_sets ok cid d rest]

theorem applyAccounts_aborted_log (ok : Call → Bool) (cid : String) (d : Nat) :
    ∀ accounts : List Account,
      (applyAccounts ok cid d accounts).2 = ApplyOutcome.aborted →
      Event.logError ∈ (applyAccounts ok cid d accounts).1
  | [] => by intro h; rw [applyAccounts] at h; simp at h
  | a :: rest => by
    intro h
    cases h1 : ok (Call.setPreferred a.id preferredPresenceRequest) with
    | false => simp [applyAccounts, h1]
    | true =>
      cases h2 : ok (Call.setPresence a.id (setPresenceRequest cid a)) with
      | false => simp [applyAccounts, h1, h2]
      | true =>
        rw [applyAccounts] at h
        simp only [h1, h2, if_true] at h
        have ih := applyAccounts_aborted_log ok cid d rest h
        simp [applyAccounts, h1, h2, ih]

theorem pollLoop_ok (pollOk : Nat → Bool) (ids : List String)
    (h : ∀ i, pollOk i = true) :
    ∀ (n i : Nat), (pollLoop pollOk ids n i).2 = false
  | 0, _ => rfl
  | Nat.succ n, i => by
    simp [pollLoop, h i, pollLoop_ok pollOk ids h n (i + 1)]

theorem mem_takeWhile_break {α : Type} (p : α → Bool) (a : α) (ha : p a = false) :
    ∀ (l1 l2 : List α) (x : α), x ∈ (l1 ++ a :: l2).takeWhile p → x ∈ l1
  | [], l2, x => by simp [List.takeWhile_cons, ha]
  | y :: l1, l2, x => by
    cases hy : p y with
    | false => simp [List.takeWhile_cons, hy]
    | true =>
      simp only [List.cons_append, List.takeWhile_cons, hy, if_true]
      intro hx
      rcases List.mem_cons.mp hx with rfl | hx
      · exact List.mem_cons_self x l1
      · exact List.mem_cons_of_mem y (mem_takeWhile_break p a ha l1 l2 x hx)

/-- C1: `setPresence` maps status "Busy" to availability "Busy" and activity
"InACall"; "DoNotDisturb" to "DoNotDisturb"/"Presenting"; "Away" to
"Away"/"Away"; "Available" and every status whose lowercasing is none of the
four recognised words to "Available"/"Available". -/
theorem c1_status_mapping (cid : String) (a : Account) :
    (a.status = "Busy" →
      (setPresenceRequest cid a).availability = "Busy" ∧
      (setPresenceRequest cid a).activity = "InACall") ∧
    (a.status = "DoNotDisturb" →
      (setPresenceRequest cid a).availability = "DoNotDisturb" ∧
      (setPresenceRequest cid a).activity = "Presenting") ∧
    (a.status = "Away" →
      (setPresenceRequest cid a).availability = "Away" ∧
      (setPresenceRequest cid a).activity = "Away") ∧
    (a.status = "Available" →
      (setPresenceRequest cid a).availability = "Available" ∧
      (setPresenceRequest cid a).activity = "Available") ∧
    (strLower a.status ≠ "available" → strLower a.status ≠ "away" →
      strLower a.status ≠ "busy" → strLower a.status ≠ "donotdisturb" →
      (setPresenceRequest cid a).availability = "Available" ∧
      (setPresenceRequest cid a).activity = "Available") := by
  have hav : (setPresenceRequest cid a).availability = (statusToPresence a.status).1 := rfl
  have hac : (setPresenceRequest cid a).activity = (statusToPresence a.status).2 := rfl
  refine ⟨?_, ?_, ?_, ?_, ?_⟩
  · intro h; rw [hav, hac, h]; exact ⟨by decide, by decide⟩
  · intro h; rw [hav, hac, h]; exact ⟨by decide, by decide⟩
  · intro h; rw [hav, hac, h]; exact ⟨by decide, by decide⟩
  · intro h; rw [hav, hac, h]; exact ⟨by decide, by decide⟩
  · intro h1 h2 h3 h4
    rw [hav, hac]
    simp [statusToPresence, if_neg h1, if_neg h2, if_neg h3, if_neg h4]

/-- Witness for C1: concrete evaluation at status "Busy" and at the
unrecognised status "Offline". -/
theorem c1_status_mapping_witness :
    ((setPresenceRequest "c" ⟨"i", "u", "Busy"⟩).availability = "Busy" ∧
      (setPresenceRequest "c" ⟨"i", "u", "Busy"⟩).activity = "InACall") ∧
    ((setPresenceRequest "c" ⟨"i", "u", "Offline"⟩).availability = "Available" ∧
      (setPresenceRequest "c" ⟨"i", "u", "Offline"⟩).activity = "Available") :=
  ⟨(c1_status_mapping "c" ⟨"i", "u", "Busy"⟩).1 rfl,
    (c1_status_mapping "c" ⟨"i", "u", "Offline"⟩).2.2.2.2
      (by decide) (by decide) (by decide) (by decide)⟩

/-- C10: the status mapping is case-insensitive: two statuses with the same
lowercasing (in particular, any two case variants of the same word) produce
the same availability/activity pair in the set-presence request. -/
theorem c10_status_case_insensitive (cid : String) (a : Account) (s t : String)
    (h : strLower s = strLower t) :
    ((setPresenceRequest cid { a with status := s }).availability,
      (setPresenceRequest cid { a with status := s }).activity) =
    ((setPresenceRequest cid { a with status := t }).availability,
      (setPresenceRequest cid { a with status := t }).activity) := by
  show ((statusToPresence s).1, (statusToPresence s).2) =
    ((statusToPresence t).1, (statusToPresence t).2)
  simp only [statusToPresence, h]

/-- Witness for C10: "bUsY" and "Busy" yield the same pair. -/
theorem c10_status_case_insensitive_witness :
    ((setPresenceRequest "c" ⟨"i", "u", "bUsY"⟩).availability,
      (setPresenceRequest "c" ⟨"i", "u", "bUsY"⟩).activity) =
    ((setPresenceRequest "c" ⟨"i", "u", "Busy"⟩).availability,
      (setPresenceRequest "c" ⟨"i", "u", "Busy"⟩).activity) :=
  c10_status_case_insensitive "c" ⟨"i", "u", "x"⟩ "bUsY" "Busy" (by decide)

/-- Counterexample to C2: with one matching entry followed by one unmatched
entry, the load fails, but `this.accounts` is left holding the resolved
first account — a partial, non-empty account set, so the accounts state is
not unchanged on error. -/
theorem c2_counterexample :
    isErr (loadAccounts none cxUsers cxTargets).1 = true ∧
    (loadAccounts none cxUsers cxTargets).2 = [⟨"id1", "alice@x.com", "Available"⟩] ∧
    (loadAccounts none cxUsers cxTargets).2 ≠ ([] : List Account) := by
  refine ⟨by decide, by decide, by decide⟩

/-- C2 (amended): if any entry fails to resolve, the whole load fails with an
error (fail-fast, no result returned), but the client's accounts state is not
unchanged: it is cleared and then holds exactly the accounts resolved before
the first failing entry. -/
theorem c2_failfast_partial_state (env : Option String) (users : List User)
    (targets : List Target)
    (h : ∃ t ∈ targets, users.find? (matchesTarget t) = none) :
    isErr (loadAccounts env users targets).1 = true ∧
    (loadAccounts env users targets).2 = resolvedSoFar env users targets := by
  obtain ⟨t, hmem, hnone⟩ := h
  exact ⟨loadAccountsGo_unmatched env users targets [] t hmem hnone,
    loadAccountsGo_state env users targets []⟩

/-- Witness for the amended C2 at the concrete data above. -/
theorem c2_failfast_partial_state_witness :
    isErr (loadAccounts none cxUsers cxTargets).1 = true ∧
    (loadAccounts none cxUsers cxTargets).2 = resolvedSoFar none cxUsers cxTargets :=
  c2_failfast_partial_state none cxUsers cxTargets
    ⟨⟨some "B", some "bob@x.com", none, none⟩, by decide, by decide⟩

/-- C3: for a configuration entry (with label `lbl`) whose keys match no
remote user case-insensitively, account resolution fails; and when that entry
is the first unmatched one (every earlier entry matches), the error is
exactly the account-not-found message naming `lbl`. -/
theorem c3_unmatched_names_label (env : Option String) (users : List User)
    (pre post : List Target) (t : Target) (lbl : String)
    (hnone : users.find? (matchesTarget t) = none)
    (hlbl : t.label = some lbl) :
    isErr (loadAccounts env users (pre ++ t :: post)).1 = true ∧
    ((∀ x ∈ pre, (users.find? (matchesTarget x)).isSome = true) →
      (loadAccounts env users (pre ++ t :: post)).1 =
        Except.error ("Account not found for " ++ lbl)) := by
  constructor
  · exact loadAccountsGo_unmatched env users (pre ++ t :: post) [] t
      (List.mem_append.mpr (Or.inr (List.mem_cons_self t post))) hnone
  · intro hpre
    have : labelOf t = lbl := by simp [labelOf, hlbl]
    rw [← this]
    exact loadAccountsGo_firstFail env users t post hnone pre [] hpre

/-- Witness for C3: a single unmatched entry labelled "B" produces the error
naming "B". -/
theorem c3_unmatched_names_label_witness :
    isErr (loadAccounts none cxUsers
      ([] ++ (⟨some "B", some "bob@x.com", none, none⟩ : Target) :: [])).1 = true ∧
    (loadAccounts none cxUsers
      ([] ++ (⟨some "B", some "bob@x.com", none, none⟩ : Target) :: [])).1 =
      Except.error ("Account not found for " ++ "B") := by
  have h := c3_unmatched_names_label none cxUsers [] []
    ⟨some "B", some "bob@x.com", none, none⟩ "B" (by decide) rfl
  exact ⟨h.1, h.2 (by intro x hx; exact absurd hx (List.not_mem_nil x))⟩

/-- C9: a config entry carrying both a (non-empty) username and id is not
rejected: it matches a user exactly when either key matches
case-insensitively (the username comparison is the left, first-evaluated
disjunct), and when some user matches, loading that single entry resolves it
successfully. -/
theorem c9_both_keys_resolve (env : Option String) (t : Target) (n i : String)
    (hu : t.username = some n) (hi : t.id = some i)
    (hn : n ≠ "") (hie : i ≠ "") :
    (∀ u : User, matchesTarget t u =
      ((strLower u.userPrincipalName == strLower n) || (strLower u.id == strLower i))) ∧
    (∀ (users : List User) (u : User),
      users.find? (matchesTarget t) = some u →
      (loadAccounts env users [t]).1 = Except.ok [resolveOne env t u]) := by
  constructor
  · intro u
    have h1 : (n == "") = false := beq_eq_false_iff_ne.mpr hn
    have h2 : (i == "") = false := beq_eq_false_iff_ne.mpr hie
    simp [matchesTarget, hu, hi, h1, h2]
  · intro users u hfind
    simp [loadAccounts, loadAccountsGo, hfind]

/-- Witness for C9: an entry with both keys, where only the id matches (and
only up to case), still resolves. -/
theorem c9_both_keys_resolve_witness :
    (matchesTarget ⟨some "L", some "alice@x.com", some "ID9", none⟩ ⟨"id9", "bob@x.com"⟩ =
      ((strLower "bob@x.com" == strLower "alice@x.com") ||
        (strLower "id9" == strLower "ID9"))) ∧
    (loadAccounts none [⟨"id9", "bob@x.com"⟩]
      [⟨some "L", some "alice@x.com", some "ID9", none⟩]).1 =
      Except.ok [resolveOne none ⟨some "L", some "alice@x.com", some "ID9", none⟩
        ⟨"id9", "bob@x.com"⟩] := by
  have h := c9_both_keys_resolve none ⟨some "L", some "alice@x.com", some "ID9", none⟩
    "alice@x.com" "ID9" rfl rfl (by decide) (by decide)
  exact ⟨h.1 ⟨"id9", "bob@x.com"⟩, h.2 [⟨"id9", "bob@x.com"⟩] ⟨"id9", "bob@x.com"⟩ (by decide)⟩

/-- C4: when the remote calls succeed, one applying cycle issues, for each
resolved account in order, exactly two remote calls: first the
user-preferred-presence clear, then the explicit set-presence; and every
explicit set-presence request carries the fixed "PT4H" expiration. -/
theorem c4_two_calls_pt4h (ok : Call → Bool) (cid : String) (d : Nat)
    (accounts : List Account) (hok : ∀ c, ok c = true) :
    callsOf (processApply ok cid d accounts).1 =
      (accounts.map fun a =>
        [Call.setPreferred a.id preferredPresenceRequest,
          Call.setPresence a.id (setPresenceRequest cid a)]).flatten ∧
    ∀ a : Account, (setPresenceRequest cid a).expirationDuration = "PT4H" := by
  constructor
  · have hd : callsOf (processApply ok cid d accounts).1 =
        callsOf (applyAccounts ok cid d accounts).1 := by
      simp [processApply, callsOf]
    rw [hd]
    exact applyAccounts_calls ok cid d hok accounts
  · intro a; rfl

/-- Witness for C4: the single-account cycle issues exactly the two calls,
and its set-presence request carries "PT4H". -/
theorem c4_two_calls_pt4h_witness :
    callsOf (processApply (fun _ => true) "c" 200 [cxA1]).1 =
      (([cxA1] : List Account).map fun a =>
        [Call.setPreferred a.id preferredPresenceRequest,
          Call.setPresence a.id (setPresenceRequest "c" a)]).flatten ∧
    (setPresenceRequest "c" cxA1).expirationDuration = "PT4H" :=
  ⟨(c4_two_calls_pt4h (fun _ => true) "c" 200 [cxA1] (fun _ => rfl)).1,
    (c4_two_calls_pt4h (fun _ => true) "c" 200 [cxA1] (fun _ => rfl)).2 cxA1⟩

/-- Counterexample to C5 as stated: when the explicit set-presence call fails,
the iteration logs the error and continues — but it does not wait the fixed
30-second backoff before resuming: it proceeds straight into the polling
phase (a successful presence fetch appears in the same iteration's trace, and
no 30000 ms delay occurs anywhere in it). -/
theorem c5_counterexample :
    (mainIteration (Except.ok cxTarget1) (Except.ok cxUsers) none cxFailSet
      (fun _ => true) "c" 200 1 []).2 = LoopStep.next ∧
    Event.logError ∈ (mainIteration (Except.ok cxTarget1) (Except.ok cxUsers) none cxFailSet
      (fun _ => true) "c" 200 1 []).1 ∧
    Event.delay 30000 ∉ (mainIteration (Except.ok cxTarget1) (Except.ok cxUsers) none cxFailSet
      (fun _ => true) "c" 200 1 []).1 ∧
    Event.callOk (Call.getPresences ["id1"]) ∈
      (mainIteration (Except.ok cxTarget1) (Except.ok cxUsers) none cxFailSet
        (fun _ => true) "c" 200 1 []).1 := by
  refine ⟨by decide, by decide, by decide, by decide⟩

/-- C5 (amended): a remote failure while applying presences never crashes the
process: `Graph.process` catches it, logs it, and returns, and the outer loop
continues — but without the fixed backoff: the iteration proceeds directly to
the polling phase (the 30-second backoff only follows errors thrown outside
`process`, such as a polling failure). -/
theorem c5_apply_failure_logged_no_backoff (targets : List Target)
    (users : List User) (env : Option String) (ok : Call → Bool)
    (pollOk : Nat → Bool) (cid : String) (d n : Nat)
    (prev accounts : List Account)
    (hload : (loadAccounts env users targets).1 = Except.ok accounts)
    (habort : (applyAccounts ok cid d accounts).2 = ApplyOutcome.aborted)
    (hpoll : ∀ i, pollOk i = true) :
    Event.logError ∈ processRun (Except.ok targets) (Except.ok users) env ok cid d ∧
    mainIteration (Except.ok targets) (Except.ok users) env ok pollOk cid d n prev =
      (processRun (Except.ok targets) (Except.ok users) env ok cid d ++
        (pollLoop pollOk
          ((accountsAfter prev (Except.ok targets) (Except.ok users) env).map Account.id)
          n 0).1,
        LoopStep.next) := by
  constructor
  · have hlog := applyAccounts_aborted_log ok cid d accounts habort
    simp [processRun, hload, processApply, hlog]
  · rw [mainIteration]
    rw [pollLoop_ok pollOk _ hpoll n 0]
    simp

/-- Witness for the amended C5 at concrete data: a failing set-presence call
is logged and the iteration continues directly into polling. -/
theorem c5_apply_failure_logged_no_backoff_witness :
    Event.logError ∈ processRun (Except.ok cxTarget1) (Except.ok cxUsers) none
      cxFailSet "c" 200 ∧
    mainIteration (Except.ok cxTarget1) (Except.ok cxUsers) none cxFailSet
      (fun _ => true) "c" 200 1 [] =
      (processRun (Except.ok cxTarget1) (Except.ok cxUsers) none cxFailSet "c" 200 ++
        (pollLoop (fun _ => true)
          ((accountsAfter [] (Except.ok cxTarget1) (Except.ok cxUsers) none).map Account.id)
          1 0).1,
        LoopStep.next) :=
  c5_apply_failure_logged_no_backoff cxTarget1 cxUsers none cxFailSet
    (fun _ => true) "c" 200 1 [] [⟨"id1", "alice@x.com", "Available"⟩]
    rfl rfl (fun _ => rfl)

/-- C6: a presence-setting failure for one account aborts the whole applying
cycle: no account after the failing one has its presence successfully set in
that cycle (stated for a later account whose id does not also occur earlier
in the list). -/
theorem c6_failure_aborts_rest (ok : Call → Bool) (cid : String) (d : Nat)
    (l1 l2 : List Account) (a b : Account)
    (hfail : (ok (Call.setPreferred a.id preferredPresenceRequest) &&
      ok (Call.setPresence a.id (setPresenceRequest cid a))) = false)
    (hb : b ∈ l2)
    (hid : b.id ∉ l1.map Account.id) :
    b.id ∉ setsOf (processApply ok cid d (l1 ++ a :: l2)).1 := by
  intro hmem
  have hs : setsOf (processApply ok cid d (l1 ++ a :: l2)).1 =
      (((l1 ++ a :: l2).takeWhile fun x =>
        ok (Call.setPreferred x.id preferredPresenceRequest) &&
          ok (Call.setPresence x.id (setPresenceRequest cid x))).map Account.id) := by
    simp [processApply, setsOf, applyAccounts_sets ok cid d (l1 ++ a :: l2)]
  rw [hs] at hmem
  obtain ⟨c, hc, hcid⟩ := List.mem_map.mp hmem
  have hcl1 : c ∈ l1 := mem_takeWhile_break _ a hfail l1 l2 c hc
  exact hid (hcid ▸ List.mem_map_of_mem Account.id hcl1)

/-- Witness for C6: with three accounts and the set-presence call for the
second failing, the third account's presence is never set in that cycle. -/
theorem c6_failure_aborts_rest_witness :
    cxA3.id ∉ setsOf (processApply cxFailSecond "c" 200 ([cxA1] ++ cxA2 :: [cxA3])).1 :=
  c6_failure_aborts_rest cxFailSecond "c" 200 [cxA1] [cxA3] cxA2 cxA3
    (by decide) (by decide) (by decide)

/-- Counterexample to C7 as stated: with all credentials present but the
configuration file missing, the process does not exit with code 1: startup
succeeds, and the iteration merely logs the error and loops again. -/
theorem c7_counterexample :
    startupExitCode ⟨some "t", some "c", some "s"⟩ = none ∧
    (mainIteration (Except.error "accounts.json not found.") (Except.ok cxUsers)
      none cxFailSet (fun _ => true) "c" 200 1 []).2 = LoopStep.next ∧
    Event.logError ∈ (mainIteration (Except.error "accounts.json not found.")
      (Except.ok cxUsers) none cxFailSet (fun _ => true) "c" 200 1 []).1 := by
  refine ⟨by decide, by decide, by decide⟩

/-- C7 (amended): the process exits with code 1 exactly when a credential
environment variable is missing (or empty) at startup; in every other run —
including one whose configuration file is missing, which is merely logged —
the outer refresh loop never terminates: every iteration continues. -/
theorem c7_exit_iff_missing_credentials (e : EnvVars)
    (config : Except String (List Target)) (usersR : Except String (List User))
    (env : Option String) (ok : Call → Bool) (pollOk : Nat → Bool)
    (cid : String) (d n : Nat) (prev : List Account) :
    (startupExitCode e = some 1 ↔
      (envFalsy e.azureTenantId = true ∨ envFalsy e.azureClientId = true ∨
        envFalsy e.azureClientSecret = true)) ∧
    (mainIteration config usersR env ok pollOk cid d n prev).2 = LoopStep.next := by
  constructor
  · cases hb1 : envFalsy e.azureTenantId <;>
      cases hb2 : envFalsy e.azureClientId <;>
        cases hb3 : envFalsy e.azureClientSecret <;>
          simp [startupExitCode, graphInit, hb1, hb2, hb3]
  · cases hpl : (pollLoop pollOk ((accountsAfter prev config usersR env).map Account.id) n 0).2 with
    | false => simp [mainIteration, hpl]
    | true => simp [mainIteration, hpl]

/-- Witness for the amended C7: concrete evaluation with full credentials. -/
theorem c7_exit_iff_missing_credentials_witness :
    (startupExitCode ⟨some "t", some "c", some "s"⟩ = some 1 ↔
      (envFalsy (some "t") = true ∨ envFalsy (some "c") = true ∨
        envFalsy (some "s") = true)) ∧
    (mainIteration (Except.ok cxTarget1) (Except.ok cxUsers) none cxFailSet
      (fun _ => true) "c" 200 1 []).2 = LoopStep.next :=
  c7_exit_iff_missing_credentials ⟨some "t", some "c", some "s"⟩
    (Except.ok cxTarget1) (Except.ok cxUsers) none cxFailSet
    (fun _ => true) "c" 200 1 []

/-- C8: an applying cycle over exactly 3 accounts with a configured 200 ms
inter-call delay that runs to completion issues enforced sleeps summing to at
least 600 ms (in fact 800 ms: one delay before the loop and one after each
account). -/
theorem c8_cycle_delay_bound (ok : Call → Bool) (cid : String)
    (accounts : List Account) (hlen : accounts.length = 3)
    (hc : (applyAccounts ok cid 200 accounts).2 = ApplyOutcome.completed) :
    600 ≤ delaysSum (processApply ok cid 200 accounts).1 := by
  have h := applyAccounts_delays ok cid 200 accounts hc
  have hps : delaysSum (processApply ok cid 200 accounts).1 =
      200 + delaysSum (applyAccounts ok cid 200 accounts).1 := by
    show delaysSum (Event.delay 200 :: (applyAccounts ok cid 200 accounts).1) = _
    rw [delaysSum]
  rw [hps, h, hlen]
  norm_num

/-- Witness for C8: three concrete accounts, all calls succeeding. -/
theorem c8_cycle_delay_bound_witness :
    600 ≤ delaysSum (processApply (fun _ => true) "c" 200 [cxA1, cxA2, cxA3]).1 :=
  c8_cycle_delay_bound (fun _ => true) "c" [cxA1, cxA2, cxA3] rfl rfl

end TeamsPresence
